import Mathlib

/-!
Verification development for the gtirb-pprinter public interface
(src/include/gtirb_pprinter/PrettyPrinter.hpp).

The header carries one inline implementation, PolicyOptions::apply, which is
embedded directly.  The remaining operations are declared in the header with
their contracts in doc comments; their bodies are modelled from the
specification, as flagged on each definition.

Conventions: C++ std::unordered_set of std::string is a Finset String;
gtirb::Addr is a Nat; an output stream is a list of emitted strings.
-/

namespace GtirbPprint

/-- Embedding of class PolicyOptions (PrettyPrinter.hpp lines 98-119):
private members Skip, Keep (string sets) and UseDefaults (bool,
member-initialized to true by the default constructor). -/
structure PolicyOptions where
  Skip : Finset String
  Keep : Finset String
  UseDefaults : Bool

/-- Embedding of PolicyOptions::apply (PrettyPrinter.hpp lines 106-114):
if not UseDefaults, clear the base set; insert every element of Skip;
erase every element of Keep (the erase loop over Keep is set difference). -/
def PolicyOptions.apply (o : PolicyOptions) (c : Finset String) : Finset String :=
  ((if o.UseDefaults then c else (∅ : Finset String)) ∪ o.Skip) \ o.Keep

/-- State-passing form of the const method PolicyOptions::apply: the method
is declared const and its body only reads the members, so the option state
threads through unchanged while the argument set is rewritten. -/
def PolicyOptions.applyM (o : PolicyOptions) (c : Finset String) :
    PolicyOptions × Finset String :=
  (o, o.apply c)

/-- The default-constructed PolicyOptions (PrettyPrinter.hpp line 117-118):
Skip and Keep default-construct empty, UseDefaults member-initializes to
true. -/
def PolicyOptions.defaultCtor : PolicyOptions :=
  { Skip := ∅, Keep := ∅, UseDefaults := true }

/-- Modelled from the spec: the bodies of setDefaultSyntax / getDefaultSyntax
(declared at PrettyPrinter.hpp lines 87-93) are not under src.  The spec
describes a process-wide mutable table from (format, isa) to syntax; the
table is a list of entries where the most recent setting for a pair shadows
older ones. -/
abbrev DefaultSyntaxTable : Type := List ((String × String) × String)

/-- Modelled from the spec: setDefaultSyntax(format, isa, syntax) records a
new most-recent binding for the (format, isa) pair. -/
def setDefaultSyntax (format isa syn : String) (t : DefaultSyntaxTable) :
    DefaultSyntaxTable :=
  ((format, isa), syn) :: t

/-- Modelled from the spec: getDefaultSyntax(format, isa) returns the most
recently set syntax for the pair, or none when the pair was never set. -/
def getDefaultSyntax (format isa : String) (t : DefaultSyntaxTable) :
    Option String :=
  (List.find? (fun e => e.1 == (format, isa)) t).map (fun e => e.2)

/-- The empty default-syntax table: no (format, isa) pair has ever been set. -/
def emptyDefaultSyntaxTable : DefaultSyntaxTable := []

/-- A gtirb::Symbol as the engine sees it: a printed name and an address. -/
structure Symbol where
  name : String
  addr : Nat
deriving DecidableEq

/-- What one symbol-reference print emits to the stream. -/
inductive SymbolRefOutput where
  /-- the reference was elided (the symbol is in the symbol skip-set) -/
  | elided : SymbolRefOutput
  /-- a bare symbol name was printed -/
  | nameText (s : String) : SymbolRefOutput
  /-- a literal address expression was printed -/
  | addressLiteral (a : Nat) : SymbolRefOutput
deriving DecidableEq

/-- Modelled from the spec: the body of isAmbiguousSymbol (declared at
PrettyPrinter.hpp line 435) is not under src.  Per the spec, a symbol is
ambiguous when two or more of the module symbols share the identical
printed-name text at that address. -/
def isAmbiguousSymbol (symbols : List Symbol) (sym : Symbol) : Bool :=
  decide (2 ≤ (symbols.filter
    (fun s => s.name == sym.name && s.addr == sym.addr)).length)

/-- Modelled from the spec: the body of printSymbolReference (declared at
PrettyPrinter.hpp lines 363-368) is not under src.  Per the header comment
and the spec contract, in priority order: a symbol in the symbol skip-set is
elided and the call returns true (skipped); otherwise a forwarded symbol
prints the forwarding target name; otherwise an ambiguous symbol prints a
literal address expression; otherwise the symbol's own name is printed.
The forwarding metadata is the externally supplied symbolForwarding map. -/
def printSymbolReference (skipSymbols : Finset String)
    (symbolForwarding : String → Option String)
    (symbols : List Symbol) (sym : Symbol) : Bool × SymbolRefOutput :=
  if sym.name ∈ skipSymbols then
    (true, SymbolRefOutput.elided)
  else
    match symbolForwarding sym.name with
    | some target => (false, SymbolRefOutput.nameText target)
    | none =>
      if isAmbiguousSymbol symbols sym then
        (false, SymbolRefOutput.addressLiteral sym.addr)
      else
        (false, SymbolRefOutput.nameText sym.name)

/-- Modelled from the spec: the body of getContainerFunctionName (declared at
PrettyPrinter.hpp lines 417-418, with its contract in the doc comment at
lines 405-416) is not under src.  The entry-level lookup: the greatest
member of the functionEntry set (a std::set of addresses, here a Finset Nat)
that is less than or equal to the address, or bottom when none exists. -/
def getContainerFunctionEntry (functionEntry : Finset Nat) (x : Nat) :
    WithBot Nat :=
  (functionEntry.filter (fun e => e ≤ x)).max

/-- Modelled from the spec: the containing function's name is the symbol
name bound at the chosen entry address (getFunctionName, PrettyPrinter.hpp
line 430), applied to the entry-level lookup result. -/
def getContainerFunctionName (nameAt : Nat → String)
    (functionEntry : Finset Nat) (x : Nat) : Option String :=
  match getContainerFunctionEntry functionEntry x with
  | ⊥ => none
  | (e : Nat) => some (nameAt e)

/-- A gtirb::DataBlock as the engine sees it: an address, the raw byte
values, and the symbolic expressions recorded at byte offsets inside the
block (offset paired with the token the target prints for the expression). -/
structure DataBlockModel where
  addr : Nat
  bytes : List Nat
  symExprs : List (Nat × String)
deriving DecidableEq

/-- Modelled from the spec: printZeroDataBlock (declared at
PrettyPrinter.hpp lines 313-315) emits one compressed reserve-N-zero-bytes
directive for the block. -/
def printZeroDataBlock (b : DataBlockModel) : List String :=
  ["zeroBytes " ++ toString b.bytes.length]

/-- Modelled from the spec: printNonZeroDataBlock (declared at
PrettyPrinter.hpp lines 310-312) emits the block literally, byte by byte in
offset order, substituting the symbolic-expression token at each offset
where one is recorded. -/
def printNonZeroDataBlock (b : DataBlockModel) : List String :=
  (List.range b.bytes.length).map (fun i =>
    match List.find? (fun p => p.1 == i) b.symExprs with
    | some p => "symExpr " ++ p.2
    | none => "byte " ++ toString (b.bytes.getD i 0))

/-- Modelled from the spec: data-block dispatch — a block whose bytes are
all zero and which carries no symbolic expression is compressed; any
non-zero byte or any symbolic expression forces literal emission of the
whole block. -/
def printDataBlock (b : DataBlockModel) : List String :=
  if (b.bytes.all (fun x => x == 0)) && b.symExprs.isEmpty then
    printZeroDataBlock b
  else
    printNonZeroDataBlock b

/-- A gtirb::Section as the engine sees it: a name, an address, and its
data blocks. -/
structure SectionModel where
  name : String
  addr : Nat
  blocks : List DataBlockModel

/-- A gtirb::Module as the engine sees it: its sections. -/
structure ModuleModel where
  sections : List SectionModel

/-- An externally decoded instruction record (cs_insn): mnemonic, operand
text, address and length, an immutable value record owned by the traversal
for the duration of one instruction's formatting. -/
structure CsInsn where
  mnemonic : String
  opText : String
  address : Nat
  size : Nat
deriving DecidableEq

/-- Modelled from the spec: the body of fixupInstruction (declared at
PrettyPrinter.hpp lines 318-321) is not under src.  Per the spec, the
ISA-specific normalization hook produces a new local record from the decoded
record; the caller retains the original for diagnostics.  The result pairs
the retained original with the new normalized record. -/
def fixupInstructionM (fix : CsInsn → CsInsn) (inst : CsInsn) :
    CsInsn × CsInsn :=
  (inst, fix inst)

def blockLE (b1 b2 : DataBlockModel) : Prop := b1.addr ≤ b2.addr

def sectionLE (s1 s2 : SectionModel) : Prop := s1.addr ≤ s2.addr

instance : DecidableRel blockLE := fun b1 b2 => Nat.decLe b1.addr b2.addr

instance : DecidableRel sectionLE := fun s1 s2 => Nat.decLe s1.addr s2.addr

instance : IsTotal DataBlockModel blockLE :=
  ⟨fun b1 b2 => Nat.le_total b1.addr b2.addr⟩

instance : IsTrans DataBlockModel blockLE :=
  ⟨fun _ _ _ h1 h2 => Nat.le_trans h1 h2⟩

instance : IsTotal SectionModel sectionLE :=
  ⟨fun s1 s2 => Nat.le_total s1.addr s2.addr⟩

instance : IsTrans SectionModel sectionLE :=
  ⟨fun _ _ _ h1 h2 => Nat.le_trans h1 h2⟩

/-- Traversal order of the blocks of one section: ascending block address. -/
def sectionBlockOrder (sec : SectionModel) : List DataBlockModel :=
  List.insertionSort blockLE sec.blocks

/-- Traversal order of the sections of a module: ascending section address. -/
def moduleSectionOrder (m : ModuleModel) : List SectionModel :=
  List.insertionSort sectionLE m.sections

/-- Modelled from the spec: printSection (declared at PrettyPrinter.hpp
line 288) emits the section header directive followed by the section's
blocks in ascending block-address order. -/
def printSection (sec : SectionModel) : List String :=
  ("section " ++ sec.name) ::
    ((sectionBlockOrder sec).flatMap printDataBlock)

/-- Engine state of one traversal pass: the module being printed, referenced
read-only, and the output sink accumulated so far. -/
structure EngineState where
  module : ModuleModel
  sink : List String

/-- Emit one line of text to the output sink. -/
def emit (s : String) (st : EngineState) : EngineState :=
  { st with sink := st.sink ++ [s] }

/-- Modelled from the spec: the body of PrettyPrinterBase::print (declared
at PrettyPrinter.hpp line 268) is not under src.  One traversal pass: the
sections of the bound module in ascending address order, each section's
lines emitted to the sink in order.  The module component of the state is
only read. -/
def runPass (st : EngineState) : EngineState :=
  (moduleSectionOrder st.module).foldl
    (fun s sec => (printSection sec).foldl (fun s2 line => emit line s2) s) st

/-- The full output of one traversal pass over a module, starting from an
empty sink. -/
def printPass (m : ModuleModel) : List String :=
  (runPass { module := m, sink := [] }).sink

/-- The pass output as the byte stream the sink receives. -/
def renderOutput (m : ModuleModel) : String :=
  String.intercalate "\n" (printPass m)

/-- A registered printer factory: the policy names it can resolve.  The
engine it builds is the traversal pass above. -/
structure PrinterFactory where
  policyNames : List String

/-- The nonzero std::error_condition value print returns on a
configuration-resolution failure. -/
def configurationErrorCode : Nat := 1

/-- Modelled from the spec: the body of PrettyPrinter::print (declared at
PrettyPrinter.hpp lines 190-191) is not under src.  Resolve a factory for
the (format, isa, syntax) triple in the registry; resolve the requested
named policy against that factory; on either failure return a configuration
error with nothing written to the sink; on success run one traversal pass
and return condition 0 with the sink holding the full output. -/
def printToSink (registry : List ((String × String × String) × PrinterFactory))
    (target : String × String × String) (policyName : String)
    (m : ModuleModel) : Nat × String :=
  match List.find? (fun e => e.1 == target) registry with
  | none => (configurationErrorCode, "")
  | some e =>
    if policyName ∈ e.2.policyNames then
      (0, renderOutput m)
    else
      (configurationErrorCode, "")

/-- C1: applying a policy option to a base skip-set clears the base first
when UseDefaults is false, then adds every name in Skip, then removes every
name in Keep; a name in both Skip and Keep is absent from the result, and
the two concrete examples of the spec hold. -/
theorem PolicyOptions.apply_spec :
    (∀ (o : PolicyOptions) (c : Finset String) (x : String),
      x ∈ o.apply c ↔ ((x ∈ c ∧ o.UseDefaults = true) ∨ x ∈ o.Skip) ∧ x ∉ o.Keep)
  ∧ (∀ (o : PolicyOptions) (c : Finset String) (x : String),
      x ∈ o.Skip → x ∈ o.Keep → x ∉ o.apply c)
  ∧ PolicyOptions.apply
      { Skip := {"a"}, Keep := ∅, UseDefaults := false } {"a", "b"} = {"a"}
  ∧ PolicyOptions.apply
      { Skip := ∅, Keep := {"a"}, UseDefaults := true } {"a", "b"} = {"b"} := by
  refine ⟨?_, ?_, by decide, by decide⟩
  · intro o c x
    unfold PolicyOptions.apply
    cases h : o.UseDefaults <;>
      simp [h, Finset.mem_sdiff, Finset.mem_union]
  · intro o c x hs hk
    simp [PolicyOptions.apply, Finset.mem_sdiff, hk]

/-- Witness for C1: a name in both Skip and Keep is absent from the result
at a concrete input. -/
theorem PolicyOptions.apply_spec_witness :
    "a" ∉ PolicyOptions.apply
      { Skip := {"a"}, Keep := {"a"}, UseDefaults := true } {"b"} :=
  PolicyOptions.apply_spec.2.1
    { Skip := {"a"}, Keep := {"a"}, UseDefaults := true } {"b"} "a"
    (by decide) (by decide)

/-- C8: apply is pure with respect to the option's own state — the Skip
set, Keep set and UseDefaults flag thread through unchanged — and applying
the same option to equal base sets any number of times yields equal
results. -/
theorem PolicyOptions.applyM_pure :
    ∀ (o : PolicyOptions) (b1 b2 : Finset String), b1 = b2 →
      (o.applyM b1).1.Skip = o.Skip ∧ (o.applyM b1).1.Keep = o.Keep ∧
      (o.applyM b1).1.UseDefaults = o.UseDefaults ∧
      (o.applyM b1).2 = (o.applyM b2).2 ∧
      ∀ n : Nat, (o.apply)^[n] b1 = (o.apply)^[n] b2 := by
  intro o b1 b2 h
  subst h
  exact ⟨rfl, rfl, rfl, rfl, fun _ => rfl⟩

/-- Witness for C8 at a concrete option and base set. -/
theorem PolicyOptions.applyM_pure_witness :
    (PolicyOptions.applyM PolicyOptions.defaultCtor {"a"}).1.Skip =
        PolicyOptions.defaultCtor.Skip ∧
      (PolicyOptions.applyM PolicyOptions.defaultCtor {"a"}).1.Keep =
        PolicyOptions.defaultCtor.Keep ∧
      (PolicyOptions.applyM PolicyOptions.defaultCtor {"a"}).1.UseDefaults =
        PolicyOptions.defaultCtor.UseDefaults ∧
      (PolicyOptions.applyM PolicyOptions.defaultCtor {"a"}).2 =
        (PolicyOptions.applyM PolicyOptions.defaultCtor {"a"}).2 ∧
      ∀ n : Nat,
        (PolicyOptions.defaultCtor.apply)^[n] {"a"} =
          (PolicyOptions.defaultCtor.apply)^[n] {"a"} :=
  PolicyOptions.applyM_pure PolicyOptions.defaultCtor {"a"} {"a"} rfl

/-- C10: applying a default-constructed policy option (empty Skip, empty
Keep, UseDefaults true) is the identity on every base skip-set. -/
theorem PolicyOptions.defaultCtor_apply_id :
    ∀ c : Finset String, PolicyOptions.defaultCtor.apply c = c := by
  intro c
  simp [PolicyOptions.apply, PolicyOptions.defaultCtor]

/-- C9: after setting the default syntax for a (format, isa) pair, getting
it returns the value most recently set; for a pair never set — in the empty
table, or in any table with no entry for the pair — the result is the empty
optional. -/
theorem defaultSyntax_get_set :
    (∀ (format isa syn : String) (t : DefaultSyntaxTable),
       getDefaultSyntax format isa ( setDefaultSyntax format isa syn t) = some syn)
  ∧ (∀ format isa : String,
       getDefaultSyntax format isa emptyDefaultSyntaxTable = none)
  ∧ (∀ (format isa : String) (t : DefaultSyntaxTable),
       (∀ p ∈ t, p.1 ≠ (format, isa)) →
         getDefaultSyntax format isa t = none) := by
  refine ⟨?_, fun _ _ => rfl, ?_⟩
  · intro format isa syn t
    simp [ getDefaultSyntax, setDefaultSyntax, List.find?]
  · intro format isa t h
    have hf : List.find? (fun e => e.1 == (format, isa)) t = none := by
      rw [List.find?_eq_none]
      intro p hp
      simpa using h p hp
    simp [ getDefaultSyntax, hf]

/-- Witness for C9: a table whose single entry is for another pair yields
none, via the never-set conjunct. -/
theorem defaultSyntax_get_set_witness :
    getDefaultSyntax "elf" "x64" [(("pe", "x86"), "masm")] = none :=
  defaultSyntax_get_set.2.2 "elf" "x64" [(("pe", "x86"), "masm")]
    (by decide)

/-- C2: printing a symbol reference follows the priority order of the
contract — skip-set elision reporting skipped, then forwarding, then
ambiguity printing a literal address expression and never a bare name, then
the symbol's own name — and the call reports skipped exactly when the name
is in the symbol skip-set. -/
theorem printSymbolReference_priority :
    ∀ (skipSymbols : Finset String) (fwd : String → Option String)
      (symbols : List Symbol) (sym : Symbol),
      (sym.name ∈ skipSymbols →
        printSymbolReference skipSymbols fwd symbols sym =
          (true, SymbolRefOutput.elided))
    ∧ (∀ target : String, sym.name ∉ skipSymbols → fwd sym.name = some target →
        printSymbolReference skipSymbols fwd symbols sym =
          (false, SymbolRefOutput.nameText target))
    ∧ (sym.name ∉ skipSymbols → fwd sym.name = none →
        isAmbiguousSymbol symbols sym = true →
        printSymbolReference skipSymbols fwd symbols sym =
            (false, SymbolRefOutput.addressLiteral sym.addr)
          ∧ ∀ s : String,
            (printSymbolReference skipSymbols fwd symbols sym).2 ≠
              SymbolRefOutput.nameText s)
    ∧ (sym.name ∉ skipSymbols → fwd sym.name = none →
        isAmbiguousSymbol symbols sym = false →
        printSymbolReference skipSymbols fwd symbols sym =
          (false, SymbolRefOutput.nameText sym.name))
    ∧ ((printSymbolReference skipSymbols fwd symbols sym).1 = true ↔
        sym.name ∈ skipSymbols) := by
  intro skipSymbols fwd symbols sym
  refine ⟨?_, ?_, ?_, ?_, ?_⟩
  · intro h
    simp [printSymbolReference, h]
  · intro target h hf
    simp [printSymbolReference, h, hf]
  · intro h hf ha
    constructor
    · simp [printSymbolReference, h, hf, ha]
    · intro s
      simp [printSymbolReference, h, hf, ha]
  · intro h hf ha
    simp [printSymbolReference, h, hf, ha]
  · by_cases h : sym.name ∈ skipSymbols
    · simp [printSymbolReference, h]
    · cases hf : fwd sym.name <;>
        by_cases ha : isAmbiguousSymbol symbols sym <;>
          simp [printSymbolReference, h, hf, ha]

/-- Witness for C2: with two symbols sharing name and address, an
unforwarded unskipped reference prints the literal address expression. -/
theorem printSymbolReference_priority_witness :
    printSymbolReference {"s"} (fun _ => none)
        [⟨"x", 4⟩, ⟨"x", 4⟩] ⟨"x", 4⟩ =
      (false, SymbolRefOutput.addressLiteral 4) :=
  ((printSymbolReference_priority {"s"} (fun _ => none)
      [⟨"x", 4⟩, ⟨"x", 4⟩] ⟨"x", 4⟩).2.2.1
    (by decide) rfl (by decide)).1

/-- Helper: the greatest-entry lookup hits exactly the maximum of the
entries at or below the address. -/
theorem getContainerFunctionEntry_eq_iff (fe : Finset Nat) (a m : Nat) :
    getContainerFunctionEntry fe a = (m : WithBot Nat) ↔
      m ∈ fe ∧ m ≤ a ∧ ∀ e ∈ fe, e ≤ a → e ≤ m := by
  unfold getContainerFunctionEntry
  constructor
  · intro h
    have hmem := Finset.mem_of_max h
    rw [Finset.mem_filter] at hmem
    refine ⟨hmem.1, hmem.2, ?_⟩
    intro e he hea
    have hle : (e : WithBot Nat) ≤ (fe.filter (fun e => e ≤ a)).max :=
      Finset.le_max (Finset.mem_filter.mpr ⟨he, hea⟩)
    rw [h] at hle
    exact_mod_cast hle
  · rintro ⟨hm, hma, hmax⟩
    apply le_antisymm
    · apply Finset.max_le
      intro b hb
      rw [Finset.mem_filter] at hb
      exact WithBot.coe_le_coe.mpr (hmax b hb.1 hb.2)
    · exact Finset.le_max (Finset.mem_filter.mpr ⟨hm, hma⟩)

/-- Helper: when every entry is strictly past the address, the lookup is
bottom. -/
theorem getContainerFunctionEntry_eq_bot (fe : Finset Nat) (a : Nat)
    (h : ∀ e ∈ fe, a < e) : getContainerFunctionEntry fe a = ⊥ := by
  unfold getContainerFunctionEntry
  rw [Finset.max_eq_bot, Finset.filter_eq_empty_iff]
  intro e he
  exact Nat.not_le.mpr (h e he)

/-- C3: the containing-function lookup finds the greatest functionEntry at
or below the address (full characterization); with no entry at or below —
in particular for the empty entry set, or any address strictly before every
entry — it resolves to none; an address equal to an entry resolves to that
entry's function; an address at or past the greatest entry resolves to the
greatest entry's function. -/
theorem getContainerFunctionName_spec :
    (∀ (fe : Finset Nat) (a m : Nat),
       getContainerFunctionEntry fe a = (m : WithBot Nat) ↔
         m ∈ fe ∧ m ≤ a ∧ ∀ e ∈ fe, e ≤ a → e ≤ m)
  ∧ (∀ (nameAt : Nat → String) (fe : Finset Nat) (a : Nat),
       (∀ e ∈ fe, a < e) → getContainerFunctionName nameAt fe a = none)
  ∧ (∀ (nameAt : Nat → String) (a : Nat),
       getContainerFunctionName nameAt ∅ a = none)
  ∧ (∀ (nameAt : Nat → String) (fe : Finset Nat) (a : Nat),
       a ∈ fe → getContainerFunctionName nameAt fe a = some (nameAt a))
  ∧ (∀ (nameAt : Nat → String) (fe : Finset Nat) (a m : Nat),
       m ∈ fe → (∀ e ∈ fe, e ≤ m) → m ≤ a →
         getContainerFunctionName nameAt fe a = some (nameAt m)) := by
  refine ⟨getContainerFunctionEntry_eq_iff, ?_, ?_, ?_, ?_⟩
  · intro nameAt fe a h
    unfold getContainerFunctionName
    rw [getContainerFunctionEntry_eq_bot fe a h]
  · intro nameAt a
    unfold getContainerFunctionName
    rw [getContainerFunctionEntry_eq_bot ∅ a (by intro e he; cases he)]
  · intro nameAt fe a ha
    unfold getContainerFunctionName
    rw [(getContainerFunctionEntry_eq_iff fe a a).mpr
      ⟨ha, Nat.le_refl a, fun e _ hea => hea⟩]
    rfl
  · intro nameAt fe a m hm hmax hma
    unfold getContainerFunctionName
    rw [(getContainerFunctionEntry_eq_iff fe a m).mpr
      ⟨hm, hma, fun e he _ => hmax e he⟩]
    rfl

/-- Witness for C3: with entries 3 and 10, address 12 resolves to the
function entered at 10. -/
theorem getContainerFunctionName_spec_witness :
    getContainerFunctionName (fun n => toString n) {3, 10} 12 =
      some (toString 10) :=
  getContainerFunctionName_spec.2.2.2.2 (fun n => toString n) {3, 10} 12 10
    (by decide) (by decide) (by decide)

/-- C5: an all-zero data block with no symbolic expressions emits exactly
one compressed reserve directive; any non-zero byte or any symbolic
expression forces literal emission of the whole block, byte by byte in
offset order — one element per byte offset, a symbolic-expression token at
every offset where one is recorded, the raw byte elsewhere. -/
theorem printDataBlock_spec :
    (∀ b : DataBlockModel, (∀ x ∈ b.bytes, x = 0) → b.symExprs = [] →
       printDataBlock b = ["zeroBytes " ++ toString b.bytes.length])
  ∧ (∀ b : DataBlockModel, ((∃ x ∈ b.bytes, x ≠ 0) ∨ b.symExprs ≠ []) →
       printDataBlock b = printNonZeroDataBlock b)
  ∧ (∀ b : DataBlockModel, (printNonZeroDataBlock b).length = b.bytes.length)
  ∧ (∀ (b : DataBlockModel) (i : Nat) (p : Nat × String), i < b.bytes.length →
       List.find? (fun q => q.1 == i) b.symExprs = some p →
       (printNonZeroDataBlock b).getD i "" = "symExpr " ++ p.2)
  ∧ (∀ (b : DataBlockModel) (i : Nat), i < b.bytes.length →
       List.find? (fun q => q.1 == i) b.symExprs = none →
       (printNonZeroDataBlock b).getD i "" =
         "byte " ++ toString (b.bytes.getD i 0)) := by
  refine ⟨?_, ?_, ?_, ?_, ?_⟩
  · intro b hz hs
    have h1 : b.bytes.all (fun x => x == 0) = true := by
      rw [List.all_eq_true]
      intro x hx
      exact beq_iff_eq.mpr (hz x hx)
    have h2 : b.symExprs.isEmpty = true := List.isEmpty_iff.mpr hs
    simp [printDataBlock, printZeroDataBlock, h1, h2]
  · intro b h
    have hc : (b.bytes.all (fun x => x == 0) && b.symExprs.isEmpty) = false := by
      rcases h with ⟨x, hx, hne⟩ | hne
      · have hall : b.bytes.all (fun x => x == 0) = false :=
          List.all_eq_false.mpr ⟨x, hx, by simpa using hne⟩
        simp [hall]
      · have hemp : b.symExprs.isEmpty = false := by
          cases hh : b.symExprs.isEmpty
          · rfl
          · exact absurd (List.isEmpty_iff.mp hh) hne
        simp [hemp]
    simp [printDataBlock, hc]
  · intro b
    simp [printNonZeroDataBlock]
  · intro b i p hi hf
    simp [printNonZeroDataBlock, List.getD_eq_getElem?_getD, List.getElem?_map,
      List.getElem?_range hi, hf]
  · intro b i hi hf
    simp [printNonZeroDataBlock, List.getD_eq_getElem?_getD, List.getElem?_map,
      List.getElem?_range hi, hf]

/-- Witness for C5: a three-byte all-zero block compresses to one
directive, and one non-zero byte forces the literal path. -/
theorem printDataBlock_spec_witness :
    printDataBlock ⟨0, [0, 0, 0], []⟩ =
        ["zeroBytes " ++ toString (([0, 0, 0] : List Nat)).length] ∧
      printDataBlock ⟨0, [0, 7, 0], []⟩ =
        printNonZeroDataBlock ⟨0, [0, 7, 0], []⟩ :=
  ⟨printDataBlock_spec.1 ⟨0, [0, 0, 0], []⟩ (by decide) rfl,
   printDataBlock_spec.2.1 ⟨0, [0, 7, 0], []⟩
     (Or.inl ⟨7, by decide, by decide⟩)⟩

/-- Helper: emitting a list of lines folds to appending them to the sink. -/
theorem foldl_emit (lines : List String) (st : EngineState) :
    lines.foldl (fun s2 line => emit line s2) st =
      { st with sink := st.sink ++ lines } := by
  induction lines generalizing st with
  | nil => simp
  | cons a l ih =>
    rw [List.foldl_cons, ih]
    simp [emit]

/-- Helper: the section loop appends each section's lines in order. -/
theorem foldl_sections (secs : List SectionModel) (st : EngineState) :
    secs.foldl
        (fun s sec => (printSection sec).foldl (fun s2 line => emit line s2) s)
        st =
      { st with sink := st.sink ++ secs.flatMap printSection } := by
  induction secs generalizing st with
  | nil => simp
  | cons sec rest ih =>
    rw [List.foldl_cons, foldl_emit, ih]
    simp [List.flatMap_cons, List.append_assoc]

/-- Helper: one pass appends exactly the ordered section output to the
sink and touches nothing else in the state. -/
theorem runPass_eq (st : EngineState) :
    runPass st =
      { st with sink :=
          st.sink ++ (moduleSectionOrder st.module).flatMap printSection } := by
  unfold runPass
  exact foldl_sections _ st

/-- C6: a print pass is a deterministic function of its inputs — equal
(module, policy, target) inputs give byte-identical output — and the pass
emits the sections in ascending section-address order with the blocks of
each section in ascending block-address order. -/
theorem print_deterministic_ordered :
    (∀ m1 m2 : ModuleModel, m1 = m2 → renderOutput m1 = renderOutput m2)
  ∧ (∀ m : ModuleModel,
       printPass m = (moduleSectionOrder m).flatMap printSection)
  ∧ (∀ m : ModuleModel,
       List.Sorted (· ≤ ·) ((moduleSectionOrder m).map SectionModel.addr))
  ∧ (∀ sec : SectionModel,
       List.Sorted (· ≤ ·) ((sectionBlockOrder sec).map DataBlockModel.addr)) := by
  refine ⟨fun m1 m2 h => by rw [h], ?_, ?_, ?_⟩
  · intro m
    unfold printPass
    rw [runPass_eq]
    simp
  · intro m
    unfold moduleSectionOrder
    exact List.Pairwise.map SectionModel.addr (fun a b h => h)
      (List.sorted_insertionSort sectionLE m.sections)
  · intro sec
    unfold sectionBlockOrder
    exact List.Pairwise.map DataBlockModel.addr (fun a b h => h)
      (List.sorted_insertionSort blockLE sec.blocks)

/-- Witness for C6: two passes over the same one-section module agree. -/
theorem print_deterministic_ordered_witness :
    renderOutput ⟨[⟨".text", 0, []⟩]⟩ = renderOutput ⟨[⟨".text", 0, []⟩]⟩ :=
  print_deterministic_ordered.1 ⟨[⟨".text", 0, []⟩]⟩ ⟨[⟨".text", 0, []⟩]⟩ rfl

/-- C7: the engine is read-only over its input for the duration of a pass —
the module component of the engine state is unchanged by the traversal —
and the normalization hook pairs a new normalized record with the retained,
unmodified original decoded record. -/
theorem print_readonly_frame :
    (∀ st : EngineState, (runPass st).module = st.module)
  ∧ (∀ (fix : CsInsn → CsInsn) (inst : CsInsn),
      (fixupInstructionM fix inst).1 = inst) := by
  refine ⟨?_, fun _ _ => rfl⟩
  intro st
  rw [runPass_eq]

/-- C4: on a configuration-resolution failure — no factory registered for
the triple, or the named policy not found on the resolved factory — print
returns the nonzero configuration error condition and the sink receives no
bytes; on successful resolution it returns condition 0 with the sink holding
the full traversal output. -/
theorem printToSink_config_resolution :
    (configurationErrorCode ≠ 0)
  ∧ (∀ (registry : List ((String × String × String) × PrinterFactory))
       (target : String × String × String) (policyName : String)
       (m : ModuleModel),
       List.find? (fun e => e.1 == target) registry = none →
         printToSink registry target policyName m = (configurationErrorCode, ""))
  ∧ (∀ (registry : List ((String × String × String) × PrinterFactory))
       (target : String × String × String) (policyName : String)
       (m : ModuleModel) (e : (String × String × String) × PrinterFactory),
       List.find? (fun e2 => e2.1 == target) registry = some e →
       policyName ∉ e.2.policyNames →
         printToSink registry target policyName m = (configurationErrorCode, ""))
  ∧ (∀ (registry : List ((String × String × String) × PrinterFactory))
       (target : String × String × String) (policyName : String)
       (m : ModuleModel) (e : (String × String × String) × PrinterFactory),
       List.find? (fun e2 => e2.1 == target) registry = some e →
       policyName ∈ e.2.policyNames →
         printToSink registry target policyName m = (0, renderOutput m)) := by
  refine ⟨by decide, ?_, ?_, ?_⟩
  · intro registry target policyName m h
    unfold printToSink
    rw [h]
  · intro registry target policyName m e h h2
    unfold printToSink
    rw [h]
    simp [h2]
  · intro registry target policyName m e h h2
    unfold printToSink
    rw [h]
    simp [h2]

/-- Witness for C4: a registry for one target yields the configuration
error and an empty sink for an unregistered target. -/
theorem printToSink_config_resolution_witness :
    printToSink [(("elf", "x64", "intel"), ⟨["default"]⟩)]
        ("pe", "x86", "masm") "default" ⟨[]⟩ =
      (configurationErrorCode, "") :=
  printToSink_config_resolution.2.1
    [(("elf", "x64", "intel"), ⟨["default"]⟩)] ("pe", "x86", "masm")
    "default" ⟨[]⟩ rfl

end GtirbPprint
